import Mathlib

set_option linter.unusedVariables false

/-!
Verification of the Model/Collection abstraction layer of the Cytomine python
client (files `cytomine/models/model.py`, `cytomine/models/collection.py`,
`cytomine/models/user.py`).

A python model object is embedded as its attribute dictionary: an ordered
association list from attribute names to JSON-like values, mirroring
`self.__dict__` (insertion order, unique keys for objects built through the
embedded operations).  Stateful methods are embedded as functions from the
object state to a result record carrying the state after the call, the
outcome (normal return or raised exception) and the list of transport calls
issued, in order.  The transport layer (`Cytomine.get_instance()`) is an
external collaborator: an operation that reaches the transport records the
corresponding call; the transport response itself is outside the model.
-/

/-- A JSON-like python value: `None`, a string, an integer or a boolean. -/
inductive JVal where
  | null
  | str (s : String)
  | int (n : Int)
  | bool (b : Bool)
  deriving DecidableEq, Repr

/-- How a value is rendered inside a formatted string (python `str`). -/
def JVal.pyStr : JVal → String
  | .null => "None"
  | .str s => s
  | .int n => toString n
  | .bool b => if b then "True" else "False"

/-- An attribute dictionary: ordered key/value pairs, as `self.__dict__`. -/
abbrev Fields := List (String × JVal)

/-- Python `setattr` on a dictionary: replace the value at an existing key in
place, otherwise append the new key at the end (python dict semantics). -/
def setKey : Fields → String → JVal → Fields
  | [], k, v => [(k, v)]
  | (k0, v0) :: rest, k, v =>
    if k0 = k then (k, v) :: rest else (k0, v0) :: setKey rest k v

/-- Python `dict.pop`: remove the first binding of a key. -/
def eraseKey : Fields → String → Fields
  | [], _ => []
  | (k0, v0) :: rest, k =>
    if k0 = k then rest else (k0, v0) :: eraseKey rest k

/-- Python `str.startswith`, on the character list of the string. -/
def strStarts (s pre : String) : Bool := pre.toList.isPrefixOf s.toList

/-- Python `s[n:]`, on the character list of the string. -/
def strDrop (s : String) (n : Nat) : String := ⟨s.toList.drop n⟩

/-- The state of a `Model` instance: its public attribute dictionary.
(The private `_query_parameters` attribute never interacts with the
operations verified here; attribute keys starting with `_` are filtered
away by `to_json` exactly as in the source.) -/
structure Model where
  fields : Fields
  deriving DecidableEq, Repr

/-- Python `getattr(self, k)` as an optional lookup. -/
def Model.lookup (e : Model) (k : String) : Option JVal := e.fields.lookup k

/-- The value of `self.id`; every embedded constructor sets the `id` key, so
the default for a missing key is never exercised by reachable states. -/
def Model.idVal (e : Model) : JVal := (e.fields.lookup "id").getD JVal.null

/-- `Model.is_new`: `self.id is None`. -/
def Model.is_new (e : Model) : Bool := e.idVal == JVal.null

/-- `Model.__init__`: the attributes common to all models, all `None`. -/
def Model.initE : Model :=
  ⟨[("id", JVal.null), ("created", JVal.null), ("updated", JVal.null),
    ("deleted", JVal.null), ("name", JVal.null)]⟩

/-- Python `setattr(self, k, v)`. -/
def Model.setattr (e : Model) (k : String) (v : JVal) : Model :=
  ⟨setKey e.fields k v⟩

/-- The key-rewriting pipeline of one iteration of `Model.populate`:
strip an `id_` prefix, remap `uri` to `uri_`, drop keys starting with `_`,
remap `class` to `class_`.  Returns the attribute name actually assigned,
or `none` when the pair is dropped. -/
def populateKey (k : String) : Option String :=
  let k1 := if strStarts k "id_" then strDrop k 3 else k
  let k2 := if k1 = "uri" then "uri_" else k1
  if strStarts k2 "_" then none
  else some (if k2 = "class" then k2 ++ "_" else k2)

/-- `Model.populate`: merge a mapping into the attribute dictionary, applying
the renaming rules of `populateKey` to each key in iteration order. -/
def Model.populate (e : Model) (attrs : List (String × JVal)) : Model :=
  attrs.foldl
    (fun e kv =>
      match populateKey kv.1 with
      | none => e
      | some k => e.setattr k kv.2) e

/-- `Model.to_json`: keep the public (no `_` prefix), non-`None` attributes,
then rename `uri_` back to `uri` (a python `d["uri"] = d.pop("uri_")`). -/
def Model.to_json (e : Model) : Fields :=
  let d := e.fields.filter (fun kv => kv.2 != JVal.null && !strStarts kv.1 "_")
  match d.lookup "uri_" with
  | some v => setKey (eraseKey d "uri_") "uri" v
  | none => d

/-- `Model.uri`: collection endpoint for new models, item endpoint for
persisted ones; `kind` stands for `self.callback_identifier`. -/
def Model.uri (kind : String) (e : Model) : String :=
  if e.is_new then kind ++ ".json"
  else kind ++ "/" ++ e.idVal.pyStr ++ ".json"

/-- One call to the external transport collaborator. -/
inductive TCall where
  | getModel
  | postModel
  | putModel
  | deleteModel
  | getCollection
  | postCollection
  deriving DecidableEq, Repr

/-- A python exception value. -/
inductive PyError where
  | valueError (msg : String)
  | typeError (msg : String)
  | notImplemented (msg : String)
  | attributeError (msg : String)
  deriving DecidableEq, Repr

/-- Normal return or raised exception. -/
inductive Outcome where
  | ok
  | err (e : PyError)
  deriving DecidableEq, Repr

/-- Result of a stateful model operation: the state of `self` after the
call, the outcome, and the transport calls issued, in order. -/
structure OpResult where
  state : Model
  outcome : Outcome
  calls : List TCall
  deriving DecidableEq, Repr

/-- `Model.fetch(id=None)`: fails when neither the model nor the argument
carries an id; otherwise stores the explicit id and performs the transport
get. -/
def Model.fetch (e : Model) (id : Option JVal) : OpResult :=
  if e.idVal == JVal.null && id.isNone then
    ⟨e, .err (.valueError "Cannot fetch a model with no ID."), []⟩
  else
    let e1 := match id with | some i => e.setattr "id" i | none => e
    ⟨e1, .ok, [TCall.getModel]⟩

/-- `Model.delete(id=None)`: same id-resolution contract, transport delete. -/
def Model.delete (e : Model) (id : Option JVal) : OpResult :=
  if e.idVal == JVal.null && id.isNone then
    ⟨e, .err (.valueError "Cannot delete a model with no ID."), []⟩
  else
    let e1 := match id with | some i => e.setattr "id" i | none => e
    ⟨e1, .ok, [TCall.deleteModel]⟩

/-- `Model.update(id=None, **attributes)`: same id-resolution contract, then
populates the supplied attributes and performs the transport put. -/
def Model.update (e : Model) (id : Option JVal) (attrs : List (String × JVal)) :
    OpResult :=
  if e.idVal == JVal.null && id.isNone then
    ⟨e, .err (.valueError "Cannot update a model with no ID."), []⟩
  else
    let e1 := match id with | some i => e.setattr "id" i | none => e
    let e2 := if attrs.isEmpty then e1 else e1.populate attrs
    ⟨e2, .ok, [TCall.putModel]⟩

/-- `Model.save`: transport create when new, otherwise `update()`. -/
def Model.save (e : Model) : OpResult :=
  if e.idVal == JVal.null then ⟨e, .ok, [TCall.postModel]⟩
  else Model.update e none []

/-- `User.__init__` with all-default arguments: base model attributes then
the user attributes, all `None` (`populate({})` is a no-op). -/
def User.initE : Model :=
  ⟨[("id", JVal.null), ("created", JVal.null), ("updated", JVal.null),
    ("deleted", JVal.null), ("name", JVal.null), ("username", JVal.null),
    ("firstname", JVal.null), ("lastname", JVal.null), ("email", JVal.null),
    ("password", JVal.null), ("language", JVal.null),
    ("isDeveloper", JVal.null), ("user", JVal.null), ("admin", JVal.null),
    ("guest", JVal.null)]⟩

/-- `CurrentUser.__init__`: the user constructor, then `self.id = 0` and the
two key attributes. -/
def CurrentUser.initE : Model :=
  ((User.initE.setattr "id" (JVal.int 0)).setattr "publicKey"
      JVal.null).setattr "privateKey" JVal.null

/-- `Role.__init__`: base model attributes plus `authority`. -/
def Role.initE : Model := Model.initE.setattr "authority" JVal.null

/-- `Role.save`: rejected outright, no transport call. -/
def Role.save (e : Model) : OpResult :=
  ⟨e, .err (.notImplemented "Cannot save a new role by client."), []⟩

/-- `UserRole.__init__(id_user, id_role)` with no extra attributes. -/
def UserRole.initE (id_user id_role : JVal) : Model :=
  ((Model.initE.setattr "user" id_user).setattr "role" id_role).setattr
    "authority" JVal.null

/-- `UserRole.fetch(id_user=None, id_role=None)`: sets `self.id = -1` first,
then validates the composite key, then stores the explicit parts and
performs the transport get. -/
def UserRole.fetch (e : Model) (id_user id_role : Option JVal) : OpResult :=
  let e1 := e.setattr "id" (JVal.int (-1))
  if (e1.lookup "user").getD JVal.null == JVal.null && id_user.isNone then
    ⟨e1, .err (.valueError "Cannot fetch a model with no user ID."), []⟩
  else if (e1.lookup "role").getD JVal.null == JVal.null && id_role.isNone then
    ⟨e1, .err (.valueError "Cannot fetch a model with no role ID."), []⟩
  else
    let e2 := match id_user with | some v => e1.setattr "user" v | none => e1
    let e3 := match id_role with | some v => e2.setattr "role" v | none => e2
    ⟨e3, .ok, [TCall.getModel]⟩

/-- `UserGroup.__init__(id_user, id_group)` with no extra attributes. -/
def UserGroup.initE (id_user id_group : JVal) : Model :=
  (Model.initE.setattr "user" id_user).setattr "group" id_group

/-- `UserGroup.fetch(id_user=None, id_group=None)`: same shape as
`UserRole.fetch`, including the `self.id = -1` assignment before the
validation. -/
def UserGroup.fetch (e : Model) (id_user id_group : Option JVal) : OpResult :=
  let e1 := e.setattr "id" (JVal.int (-1))
  if (e1.lookup "user").getD JVal.null == JVal.null && id_user.isNone then
    ⟨e1, .err (.valueError "Cannot fetch a model with no user ID."), []⟩
  else if (e1.lookup "group").getD JVal.null == JVal.null && id_group.isNone
  then
    ⟨e1, .err (.valueError "Cannot fetch a model with no group ID."), []⟩
  else
    let e2 := match id_user with | some v => e1.setattr "user" v | none => e1
    let e3 := match id_group with
      | some v => e2.setattr "group" v
      | none => e2
    ⟨e3, .ok, [TCall.getModel]⟩

/-- `UserGroup.update`: rejected outright, no transport call. -/
def UserGroup.update (e : Model) : OpResult :=
  ⟨e, .err (.notImplemented "Cannot update a user-group."), []⟩

/-- `UserRole.update`: rejected outright, no transport call. -/
def UserRole.update (e : Model) : OpResult :=
  ⟨e, .err (.notImplemented "Cannot update a user-role."), []⟩

/-- `Model.save` as inherited by `UserGroup`: python dynamic dispatch sends
the `self.update()` of the non-new branch to the subclass override. -/
def UserGroup.save (e : Model) : OpResult :=
  if e.idVal == JVal.null then ⟨e, .ok, [TCall.postModel]⟩
  else UserGroup.update e

/-- `Model.save` as inherited by `UserRole`: python dynamic dispatch sends
the `self.update()` of the non-new branch to the subclass override. -/
def UserRole.save (e : Model) : OpResult :=
  if e.idVal == JVal.null then ⟨e, .ok, [TCall.postModel]⟩
  else UserRole.update e

/-- The state of a `DomainModel`: its own attribute dictionary, the owner
snapshot attributes `domainClassName` and `domainIdent`, and the stored
owner reference `_object`. -/
structure DomainModel where
  entity : Model
  domainClassName : JVal
  domainIdent : JVal
  obj : Model
  deriving DecidableEq, Repr

/-- `DomainModel.__init__(object)`: rejects a new (unsaved) owner before
anything else; otherwise snapshots `object.class_` and `object.id` through
the `obj` setter.  Reading `class_` on an owner that does not carry it is a
python `AttributeError`. -/
def DomainModel.init (owner : Model) : Except PyError DomainModel :=
  if owner.is_new then
    .error (.valueError "The object must be fetched or saved before.")
  else
    match owner.lookup "class_" with
    | none => .error (.attributeError "class_")
    | some cn => .ok ⟨Model.initE, cn, owner.idVal, owner⟩

/-- `DomainModel.uri`: nests under the snapshot owner discriminator and id,
never re-reading the live owner object. -/
def DomainModel.uri (kind : String) (d : DomainModel) : String :=
  if d.entity.is_new then
    "domain/" ++ d.domainClassName.pyStr ++ "/" ++ d.domainIdent.pyStr ++
      "/" ++ kind ++ ".json"
  else
    "domain/" ++ d.domainClassName.pyStr ++ "/" ++ d.domainIdent.pyStr ++
      "/" ++ kind ++ "/" ++ d.entity.idVal.pyStr ++ ".json"

/-- The state of a `Collection` instance: the concrete collection class name
(`cls`, python `type(self)`), the backing element list `_data`, the
`_allowed_filters` declaration (a python list that may contain `None`),
the `_filters` mapping, the pagination attributes `max` and `offset` and
the cached `_total` and `_total_pages`. -/
structure Collection (α : Type) where
  cls : String
  data : List α
  allowed_filters : List (Option String)
  filters : List (String × String)
  max : Option Int
  offset : Int
  total : Int
  total_pages : Option Int
  deriving DecidableEq, Repr

/-- `Collection.__init__(model, filters, max, offset)`: empty data, no total
known yet (`_total = 0`, `_total_pages = None`). -/
def Collection.init (α : Type) (cls : String) (filters : List (String × String))
    (max : Option Int) (offset : Int) : Collection α :=
  { cls := cls, data := [], allowed_filters := [], filters := filters,
    max := max, offset := offset, total := 0, total_pages := none }

/-- `Collection.populate(attributes, append_mode)`: build one element per
entry of `attributes["collection"]` (the element constructor plus its own
`populate`, abstracted by `mk`), replace or append `_data`, then set
`_total` from `attributes["size"]` and recompute `_total_pages` as
`total // max`, or exactly 1 when `max` is `None` or 0. -/
def Collection.populate {α : Type} (c : Collection α) (mk : Fields → α)
    (size : Int) (insts : List Fields) (append_mode : Bool) : Collection α :=
  let data := insts.map mk
  { c with
    data := if append_mode then c.data ++ data else data,
    total := size,
    total_pages := some (match c.max with
      | none => 1
      | some m => if m = 0 then 1 else Int.fdiv size m) }

/-- Python `"/".join`. -/
def joinSlash : List String → String
  | [] => ""
  | [x] => x
  | x :: y :: rest => x ++ "/" ++ joinSlash (y :: rest)

/-- `Collection.uri(without_filters)`: with filters requested, more than one
set filter is rejected; the single set filter contributes a
`key/value/` prefix when its key is in `_allowed_filters`; `kind` stands
for `self.callback_identifier`. -/
def Collection.uri {α : Type} (c : Collection α) (kind : String)
    (without_filters : Bool) : Except PyError String :=
  if !without_filters then
    if c.filters.length > 1 then
      .error (.valueError "More than 1 filter not allowed by default.")
    else
      let parts := (c.filters.filter
          (fun kv => c.allowed_filters.contains (some kv.1))).map
        (fun kv => kv.1 ++ "/" ++ kv.2)
      let u := joinSlash parts
      let u1 := if u.length > 0 then u ++ "/" else u
      .ok (u1 ++ kind ++ ".json")
  else .ok (kind ++ ".json")

/-- `Collection.__setitem__(index, value)`: rejects a value that is not an
instance of the declared kind (`inst` stands for
`isinstance(value, self._model)`) before touching `_data`. -/
def Collection.setitem {α : Type} (c : Collection α) (inst : α → Bool)
    (index : Nat) (value : α) : Outcome × Collection α :=
  if !inst value then
    (.err (.typeError "Value of this type not allowed in this collection."), c)
  else (.ok, { c with data := c.data.set index value })

/-- `Collection.insert(index, value)`: same kind check, then a python
`list.insert` (indexes past the end append). -/
def Collection.insert {α : Type} (c : Collection α) (inst : α → Bool)
    (index : Nat) (value : α) : Outcome × Collection α :=
  if !inst value then
    (.err (.typeError "Value of this type not allowed in this collection."), c)
  else
    let i := min index c.data.length
    (.ok, { c with data := c.data.take i ++ value :: c.data.drop i })

/-- `Collection.__iadd__(other)`: rejected unless both operands have the same
concrete collection class; otherwise extends `_data`. -/
def Collection.iadd {α : Type} (c other : Collection α) :
    Outcome × Collection α :=
  if c.cls ≠ other.cls then
    (.err (.typeError "Only two same Collection objects can be added together."),
      c)
  else (.ok, { c with data := c.data ++ other.data })

/-- `Collection.__add__(other)`: same class check; on success a fresh copy of
`self` receives the elements of `self` then `other`; `self` is unchanged
either way. -/
def Collection.add {α : Type} (c other : Collection α) :
    Outcome × Collection α :=
  if c.cls ≠ other.cls then
    (.err (.typeError "Only two same Collection objects can be added together."),
      c)
  else (.ok, { c with data := c.data ++ other.data })

/-- Modelled from the spec: the chunked parallel uploader
`generic_chunk_parallel` lives in `cytomine/_utilities/parallel.py`, which
is not among the provided source files.  Per spec section 4.5 it partitions
the index range `0..n` into ordered, non-overlapping contiguous chunks of
size `c` (the final chunk may be shorter), dispatches every chunk to the
worker, and returns, for every chunk in ascending chunk order, its index
range paired with the worker success flag.  The per-chunk worker outcome
(including a worker exception counting as failure) is abstracted by
`success : chunk index → Bool`.  `gcpAux` carries the chunk index `i` and
the chunk start position; the fuel argument makes the recursion structural
and `n` steps suffice for any positive chunk size. -/
def gcpAux (c n : Nat) (success : Nat → Bool) :
    Nat → Nat → Nat → List ((Nat × Nat) × Bool)
  | 0, _, _ => []
  | fuel + 1, i, start =>
    if start < n then
      ((start, min (start + c) n), success i) ::
        gcpAux c n success fuel (i + 1) (start + c)
    else []

/-- Modelled from the spec: see `gcpAux`. -/
def generic_chunk_parallel (n c : Nat) (success : Nat → Bool) :
    List ((Nat × Nat) × Bool) :=
  gcpAux c n success n 0 0

/-- The python slice `data[r[0]:r[1]]`. -/
def sliceOf {α : Type} (data : List α) (r : Nat × Nat) : List α :=
  (data.drop r.1).take (r.2 - r.1)

/-- One iteration of the aggregation loop of `Collection.save`: extend the
`added` partition with the chunk slice when its flag is success, the
`failed` partition otherwise. -/
def saveStep {α : Type} (data : List α) (af : List α × List α)
    (r : (Nat × Nat) × Bool) : List α × List α :=
  if r.2 then (af.1 ++ sliceOf data r.1, af.2)
  else (af.1, af.2 ++ sliceOf data r.1)

/-- The `chunk` argument of `Collection.save`: `None`, an integer, or a
value of any other type. -/
inductive ChunkArg where
  | none
  | int (c : Nat)
  | invalid
  deriving DecidableEq, Repr

/-- The outcome of `Collection.save`. -/
inductive SaveOutcome (α : Type) where
  | ok
  | partialUpload (created failed : List α)
  | err (e : PyError)
  deriving DecidableEq, Repr

/-- Result of `Collection.save`: outcome plus the transport calls issued. -/
structure CollSaveResult (α : Type) where
  outcome : SaveOutcome α
  calls : List TCall
  deriving DecidableEq, Repr

/-- `Collection.save(chunk, n_workers)`: `chunk=None` posts the whole
collection in one transport call; an integer `chunk` dispatches the chunk
ranges through `generic_chunk_parallel` (one transport post per chunk),
rebuilds the `added`/`failed` partitions from the per-chunk flags in chunk
order, and raises the partial-upload error when not every element was
added; any other `chunk` value is rejected before any transport call. -/
def Collection.save {α : Type} (c : Collection α) (chunk : ChunkArg)
    (success : Nat → Bool) : CollSaveResult α :=
  match chunk with
  | .none => ⟨.ok, [TCall.postCollection]⟩
  | .int ch =>
    let results := generic_chunk_parallel c.data.length ch success
    let af := results.foldl (saveStep c.data) ([], [])
    if af.1.length ≠ c.data.length then
      ⟨.partialUpload af.1 af.2, results.map (fun _ => TCall.postCollection)⟩
    else ⟨.ok, results.map (fun _ => TCall.postCollection)⟩
  | .invalid => ⟨.err (.valueError "Invalid value for chunk parameter."), []⟩

/-- The state of a `DomainCollection`: the base collection state plus the
owner snapshot (`_domainClassName`, `_domainIdent`) and the stored owner
reference `_object`. -/
structure DomainCollection (α : Type) where
  base : Collection α
  domainClassName : JVal
  domainIdent : JVal
  obj : Model
  deriving DecidableEq, Repr

/-- `DomainCollection.__init__(model, object, ...)`: the base constructor,
then the same owner validation and snapshot as `DomainModel`. -/
def DomainCollection.init (α : Type) (cls : String) (owner : Model)
    (filters : List (String × String)) (max : Option Int) (offset : Int) :
    Except PyError (DomainCollection α) :=
  if owner.is_new then
    .error (.valueError "The object must be fetched or saved before.")
  else
    match owner.lookup "class_" with
    | none => .error (.attributeError "class_")
    | some cn =>
      .ok ⟨Collection.init α cls filters max offset, cn, owner.idVal, owner⟩

/-- `DomainCollection.uri`: the base collection URI nested under the owner
snapshot. -/
def DomainCollection.uri {α : Type} (dc : DomainCollection α) (kind : String)
    (without_filters : Bool) : Except PyError String :=
  match Collection.uri dc.base kind without_filters with
  | .error e => .error e
  | .ok u =>
    .ok ("domain/" ++ dc.domainClassName.pyStr ++ "/" ++
      dc.domainIdent.pyStr ++ "/" ++ u)

/-- `DomainCollection.populate(attributes, append_mode)`: builds each element
with the stored owner passed to the element constructor (abstracted by
`mk`), replaces or appends `_data`, and — unlike the base
`Collection.populate` — touches neither `_total` nor `_total_pages`
(the `size` entry of the envelope is never read). -/
def DomainCollection.populate {α : Type} (dc : DomainCollection α)
    (mk : Model → Fields → α) (size : Int) (insts : List Fields)
    (append_mode : Bool) : DomainCollection α :=
  let data := insts.map (mk dc.obj)
  { dc with
    base := { dc.base with
      data := if append_mode then dc.base.data ++ data else data } }

/-- Python `enumerate` starting at index `s`: pairs each element with its
position. -/
def enumF {α : Type} : Nat → List α → List (Nat × α)
  | _, [] => []
  | i, a :: as => (i, a) :: enumF (i + 1) as

/-- The elements of a position-indexed list whose chunk (position divided by
the chunk size `c`) has worker flag equal to `flag`, in original order. -/
def chunkPart {α : Type} (success : Nat → Bool) (c : Nat) (flag : Bool)
    (l : List (Nat × α)) : List α :=
  (l.filter (fun p => success (p.1 / c) == flag)).map Prod.snd

/-- The partition that the aggregation loop of `Collection.save` extracts
from an explicit chunk-result list, in result order. -/
def aggPart {α : Type} (data : List α) (flag : Bool) :
    List ((Nat × Nat) × Bool) → List α
  | [] => []
  | r :: rest =>
    (if r.2 == flag then sliceOf data r.1 else []) ++ aggPart data flag rest

theorem enumF_append {α : Type} (l1 l2 : List α) :
    ∀ s : Nat, enumF s (l1 ++ l2) = enumF s l1 ++ enumF (s + l1.length) l2 := by
  induction l1 with
  | nil => intro s; simp [enumF]
  | cons a t ih =>
    intro s
    show (s, a) :: enumF (s + 1) (t ++ l2) =
      (s, a) :: (enumF (s + 1) t ++ enumF (s + (t.length + 1)) l2)
    rw [ih (s + 1)]
    have h : s + 1 + t.length = s + (t.length + 1) := by omega
    rw [h]

theorem enumF_length {α : Type} (l : List α) :
    ∀ s, (enumF s l).length = l.length := by
  induction l with
  | nil => intro s; rfl
  | cons a t ih => intro s; simp [enumF, ih]

theorem chunkPart_cons {α : Type} (success : Nat → Bool) (c : Nat)
    (flag : Bool) (p : Nat × α) (l : List (Nat × α)) :
    chunkPart success c flag (p :: l) =
      if success (p.1 / c) == flag then p.2 :: chunkPart success c flag l
      else chunkPart success c flag l := by
  cases hb : (success (p.1 / c) == flag) <;>
    simp [chunkPart, List.filter_cons, hb]

theorem chunkPart_append {α : Type} (success : Nat → Bool) (c : Nat)
    (flag : Bool) (l1 l2 : List (Nat × α)) :
    chunkPart success c flag (l1 ++ l2) =
      chunkPart success c flag l1 ++ chunkPart success c flag l2 := by
  simp [chunkPart, List.filter_append]

theorem chunkPart_const {α : Type} (success : Nat → Bool) (c : Nat)
    (flag : Bool) (l : List α) :
    ∀ (s k : Nat), (∀ j, s ≤ j → j < s + l.length → j / c = k) →
      chunkPart success c flag (enumF s l) =
        if success k == flag then l else [] := by
  induction l with
  | nil =>
    intro s k h
    cases hb : success k == flag <;> simp [chunkPart, enumF, hb]
  | cons a t ih =>
    intro s k h
    have hs : s / c = k := by
      apply h s le_rfl
      simp only [List.length_cons]
      omega
    have ht : chunkPart success c flag (enumF (s + 1) t) =
        if success k == flag then t else [] := by
      apply ih (s + 1) k
      intro j h1 h2
      apply h j (by omega)
      simp only [List.length_cons]
      omega
    show chunkPart success c flag ((s, a) :: enumF (s + 1) t) = _
    rw [chunkPart_cons, ht]
    simp only [hs]
    cases hb : success k == flag <;> simp [hb]

theorem chunkPart_length {α : Type} (success : Nat → Bool) (c : Nat)
    (l : List (Nat × α)) :
    (chunkPart success c true l).length +
      (chunkPart success c false l).length = l.length := by
  induction l with
  | nil => rfl
  | cons p t ih =>
    rw [chunkPart_cons, chunkPart_cons]
    cases hb : success (p.1 / c) with
    | true => simp only [hb, List.length_cons]; simp; omega
    | false => simp only [hb, List.length_cons]; simp; omega

theorem foldl_saveStep {α : Type} (data : List α) :
    ∀ (results : List ((Nat × Nat) × Bool)) (a0 f0 : List α),
      results.foldl (saveStep data) (a0, f0) =
        (a0 ++ aggPart data true results, f0 ++ aggPart data false results) := by
  intro results
  induction results with
  | nil => intro a0 f0; simp [aggPart]
  | cons r rest ih =>
    intro a0 f0
    rw [List.foldl_cons]
    cases hb : r.2 with
    | true =>
      have hstep : saveStep data (a0, f0) r = (a0 ++ sliceOf data r.1, f0) := by
        simp [saveStep, hb]
      rw [hstep, ih]
      simp [aggPart, hb, List.append_assoc]
    | false =>
      have hstep : saveStep data (a0, f0) r = (a0, f0 ++ sliceOf data r.1) := by
        simp [saveStep, hb]
      rw [hstep, ih]
      simp [aggPart, hb, List.append_assoc]

theorem take_min_len {α : Type} (l : List α) (n : Nat) :
    l.take (min n l.length) = l.take n := by
  rcases Nat.le_total n l.length with h | h
  · rw [Nat.min_eq_left h]
  · rw [Nat.min_eq_right h, List.take_length, List.take_of_length_le h]

theorem gcp_agg {α : Type} (data : List α) (ch : Nat) (success : Nat → Bool)
    (hc : 0 < ch) (flag : Bool) :
    ∀ (fuel i : Nat), (data.drop (i * ch)).length ≤ fuel →
      aggPart data flag (gcpAux ch data.length success fuel i (i * ch)) =
        chunkPart success ch flag (enumF (i * ch) (data.drop (i * ch))) := by
  intro fuel
  induction fuel with
  | zero =>
    intro i h
    have hd : data.drop (i * ch) = [] :=
      List.eq_nil_of_length_eq_zero (by omega)
    rw [hd]
    rfl
  | succ fuel ih =>
    intro i h
    by_cases hst : i * ch < data.length
    case neg =>
      have hd : data.drop (i * ch) = [] :=
        List.drop_eq_nil_of_le (by omega)
      have hunfold : gcpAux ch data.length success (fuel + 1) i (i * ch) = [] := by
        show (if i * ch < data.length then _ else []) = _
        rw [if_neg hst]
      rw [hunfold, hd]
      rfl
    case pos =>
      have hstep : (i + 1) * ch = i * ch + ch := Nat.succ_mul i ch
      have hfuel : (data.drop ((i + 1) * ch)).length ≤ fuel := by
        rw [List.length_drop] at *
        omega
      have hih := ih (i + 1) hfuel
      rw [hstep] at hih
      have hunfold :
          gcpAux ch data.length success (fuel + 1) i (i * ch) =
            ((i * ch, min (i * ch + ch) data.length), success i) ::
              gcpAux ch data.length success fuel (i + 1) (i * ch + ch) := by
        show (if i * ch < data.length then _ else []) = _
        rw [if_pos hst]
      rw [hunfold]
      show (if success i == flag then
              sliceOf data (i * ch, min (i * ch + ch) data.length) else []) ++
            aggPart data flag
              (gcpAux ch data.length success fuel (i + 1) (i * ch + ch)) = _
      rw [hih]
      have hslice : sliceOf data (i * ch, min (i * ch + ch) data.length) =
          (data.drop (i * ch)).take ch := by
        simp only [sliceOf]
        have h1 : min (i * ch + ch) data.length - i * ch =
            min ch (data.drop (i * ch)).length := by
          rw [List.length_drop]
          omega
        rw [h1, take_min_len]
      rw [hslice]
      conv_rhs => rw [← List.take_append_drop ch (data.drop (i * ch))]
      rw [enumF_append, chunkPart_append]
      have hpiece1 : chunkPart success ch flag
          (enumF (i * ch) ((data.drop (i * ch)).take ch)) =
          if success i == flag then (data.drop (i * ch)).take ch else [] := by
        apply chunkPart_const
        intro j h1 h2
        have h3 : j < (i + 1) * ch := by
          rw [List.length_take, List.length_drop] at h2
          omega
        exact Nat.div_eq_of_lt_le h1 h3
      rw [hpiece1]
      have hdd : (data.drop (i * ch)).drop ch = data.drop (i * ch + ch) :=
        List.drop_drop ch (i * ch) data
      by_cases hlen : ch ≤ (data.drop (i * ch)).length
      case pos =>
        have hTlen : ((data.drop (i * ch)).take ch).length = ch := by
          rw [List.length_take]
          omega
        rw [hTlen, hdd]
      case neg =>
        have h0 : data.drop (i * ch + ch) = [] := by
          rw [← hdd]
          exact List.drop_eq_nil_of_le (by omega)
        rw [hdd, h0]
        rfl

/-- C1: saving a collection with an integer chunk size partitions the
elements by the success flag of their chunk (the chunk of the element at
position `j` is `j / chunk`), both partitions in original element order,
and the save raises the partial-upload error carrying `(created, failed)`
exactly when `failed` is non-empty, returning success otherwise. -/
theorem claim_C1 {α : Type} (c : Collection α) (ch : Nat)
    (success : Nat → Bool) (hc : 0 < ch) :
    (Collection.save c (ChunkArg.int ch) success).outcome =
      if (chunkPart success ch false (enumF 0 c.data)).isEmpty then
        SaveOutcome.ok
      else
        SaveOutcome.partialUpload
          (chunkPart success ch true (enumF 0 c.data))
          (chunkPart success ch false (enumF 0 c.data)) := by
  have hagg := fun flag =>
    gcp_agg c.data ch success hc flag c.data.length 0 (by simp)
  simp only [Nat.zero_mul, List.drop_zero] at hagg
  have hpart : (chunkPart success ch true (enumF 0 c.data)).length +
      (chunkPart success ch false (enumF 0 c.data)).length =
      c.data.length := by
    have h := chunkPart_length success ch (enumF 0 c.data)
    rwa [enumF_length] at h
  simp only [Collection.save, generic_chunk_parallel]
  rw [foldl_saveStep]
  simp only [List.nil_append]
  rw [hagg true, hagg false]
  by_cases hf : (chunkPart success ch false (enumF 0 c.data)).isEmpty = true
  · have hnil : chunkPart success ch false (enumF 0 c.data) = [] :=
      List.isEmpty_iff.mp hf
    have hlen : (chunkPart success ch true (enumF 0 c.data)).length =
        c.data.length := by
      rw [hnil] at hpart
      simpa using hpart
    rw [if_pos hf, if_neg (by omega)]
  · have hne : chunkPart success ch false (enumF 0 c.data) ≠ [] := by
      intro h0
      apply hf
      rw [h0]
      rfl
    have hpos : 0 < (chunkPart success ch false (enumF 0 c.data)).length :=
      List.length_pos.mpr hne
    rw [if_neg hf, if_pos (by omega)]

/-- A collection holding the given element list (all other attributes at
their constructor defaults). -/
def collOf {α : Type} (data : List α) : Collection α :=
  { cls := "collection", data := data, allowed_filters := [], filters := [],
    max := some 0, offset := 0, total := 0, total_pages := none }

/-- Witness for C1, the scenario named by the claim: a 47-element collection
saved with chunk 15 produces the 4 ranges `[0,15) [15,30) [30,45) [45,47)`
(sizes 15, 15, 15, 2); with exactly chunk index 2 failing, the save raises
the partial-upload error whose `failed` partition is exactly the elements
at positions 30 to 44 and whose `created` partition covers the rest, both
in original order. -/
theorem claim_C1_witness :
    0 < 15 ∧
    (Collection.save (collOf (List.range 47)) (ChunkArg.int 15)
        (fun i => !(i == 2))).outcome =
      SaveOutcome.partialUpload (List.range 30 ++ [45, 46])
        [30, 31, 32, 33, 34, 35, 36, 37, 38, 39, 40, 41, 42, 43, 44] ∧
    generic_chunk_parallel 47 15 (fun i => !(i == 2)) =
      [((0, 15), true), ((15, 30), true), ((30, 45), false),
        ((45, 47), true)] :=
  ⟨by decide,
    (claim_C1 (collOf (List.range 47)) 15 (fun i => !(i == 2))
        (by decide)).trans (by decide),
    by decide⟩

/-- The value left at attribute `k` by the populate loop: the value of the
last entry of the mapping whose rewritten key is `k`, if any. -/
def lastVal (k : String) : List (String × JVal) → Option JVal
  | [] => none
  | kv :: rest =>
    match lastVal k rest with
    | some v => some v
    | none => if populateKey kv.1 == some k then some kv.2 else none

/-- The key under which a stored attribute appears in the `to_json` output:
only the `uri_` storage key is renamed back. -/
def emitKey (k : String) : String := if k = "uri_" then "uri" else k

theorem lookup_cons_self (k : String) (v : JVal) (rest : Fields) :
    ((k, v) :: rest).lookup k = some v := by
  simp [List.lookup]

theorem lookup_cons_ne (k k0 : String) (v : JVal) (rest : Fields)
    (h : k ≠ k0) : ((k0, v) :: rest).lookup k = rest.lookup k := by
  have hb : (k == k0) = false := beq_eq_false_iff_ne.mpr h
  simp [List.lookup, hb]

theorem setKey_lookup_self (fs : Fields) (k : String) (v : JVal) :
    (setKey fs k v).lookup k = some v := by
  induction fs with
  | nil => simp [setKey, List.lookup]
  | cons kv rest ih =>
    obtain ⟨k0, v0⟩ := kv
    by_cases h : k0 = k
    · rw [show setKey ((k0, v0) :: rest) k v = (k, v) :: rest from by
        simp [setKey, h]]
      exact lookup_cons_self k v rest
    · rw [show setKey ((k0, v0) :: rest) k v = (k0, v0) :: setKey rest k v from
        by simp [setKey, h]]
      rw [lookup_cons_ne k k0 v0 _ (fun he => h he.symm)]
      exact ih

theorem setKey_lookup_ne (fs : Fields) (k0 k : String) (v : JVal)
    (h : k0 ≠ k) : (setKey fs k0 v).lookup k = fs.lookup k := by
  induction fs with
  | nil =>
    show ((k0, v) :: []).lookup k = List.lookup k []
    rw [lookup_cons_ne k k0 v [] (Ne.symm h)]
  | cons kv rest ih =>
    obtain ⟨k1, v1⟩ := kv
    by_cases h1 : k1 = k0
    · rw [show setKey ((k1, v1) :: rest) k0 v = (k0, v) :: rest from by
        simp [setKey, h1]]
      rw [lookup_cons_ne k k0 v rest (Ne.symm h),
        lookup_cons_ne k k1 v1 rest (by rw [h1]; exact Ne.symm h)]
    · rw [show setKey ((k1, v1) :: rest) k0 v =
          (k1, v1) :: setKey rest k0 v from by simp [setKey, h1]]
      by_cases h2 : k = k1
      · subst h2
        rw [lookup_cons_self, lookup_cons_self]
      · rw [lookup_cons_ne k k1 v1 _ h2, lookup_cons_ne k k1 v1 rest h2]
        exact ih

theorem eraseKey_lookup_ne (fs : Fields) (k0 k : String) (h : k0 ≠ k) :
    (eraseKey fs k0).lookup k = fs.lookup k := by
  induction fs with
  | nil => rfl
  | cons kv rest ih =>
    obtain ⟨k1, v1⟩ := kv
    by_cases h1 : k1 = k0
    · rw [show eraseKey ((k1, v1) :: rest) k0 = rest from by
        simp [eraseKey, h1]]
      rw [lookup_cons_ne k k1 v1 rest (by rw [h1]; exact Ne.symm h)]
    · rw [show eraseKey ((k1, v1) :: rest) k0 =
          (k1, v1) :: eraseKey rest k0 from by simp [eraseKey, h1]]
      by_cases h2 : k = k1
      · subst h2
        rw [lookup_cons_self, lookup_cons_self]
      · rw [lookup_cons_ne k k1 v1 _ h2, lookup_cons_ne k k1 v1 rest h2]
        exact ih

theorem populate_cons (e : Model) (kv : String × JVal)
    (rest : List (String × JVal)) :
    Model.populate e (kv :: rest) =
      Model.populate
        (match populateKey kv.1 with
          | none => e
          | some k2 => e.setattr k2 kv.2) rest := rfl

theorem populate_lookup_none (k : String) :
    ∀ (attrs : List (String × JVal)) (e : Model), lastVal k attrs = none →
      (Model.populate e attrs).lookup k = e.lookup k := by
  intro attrs
  induction attrs with
  | nil => intro e h; rfl
  | cons kv rest ih =>
    intro e h
    have hrest : lastVal k rest = none := by
      cases hr : lastVal k rest with
      | none => rfl
      | some v => simp [lastVal, hr] at h
    have hkey : ¬(populateKey kv.1 == some k) = true := by
      intro hk
      simp [lastVal, hrest, hk] at h
    rw [populate_cons]
    cases hpk : populateKey kv.1 with
    | none => simp only [hpk]; exact ih e hrest
    | some k2 =>
      simp only [hpk]
      have hne : k2 ≠ k := by
        intro he
        apply hkey
        simp [hpk, he]
      rw [ih _ hrest]
      simp [Model.setattr, Model.lookup, setKey_lookup_ne _ _ _ _ hne]

theorem populate_lookup_last :
    ∀ (attrs : List (String × JVal)) (e : Model) (k : String) (v : JVal),
      lastVal k attrs = some v → (Model.populate e attrs).lookup k = some v := by
  intro attrs
  induction attrs with
  | nil => intro e k v h; simp [lastVal] at h
  | cons kv rest ih =>
    intro e k v h
    rw [populate_cons]
    cases hr : lastVal k rest with
    | some w =>
      have hw : w = v := by
        simp [lastVal, hr] at h
        exact h
      subst hw
      cases hpk : populateKey kv.1 with
      | none => simp only [hpk]; exact ih _ k w hr
      | some k2 => simp only [hpk]; exact ih _ k w hr
    | none =>
      by_cases hk : (populateKey kv.1 == some k) = true
      · have hv2 : kv.2 = v := by
          simp [lastVal, hr, hk] at h
          exact h
        have hk2 : populateKey kv.1 = some k := by simpa using hk
        simp only [hk2]
        rw [populate_lookup_none k rest _ hr]
        simp [Model.setattr, Model.lookup, setKey_lookup_self, hv2]
      · simp [lastVal, hr, hk] at h

theorem lastVal_mem (k : String) :
    ∀ (attrs : List (String × JVal)) (v : JVal), lastVal k attrs = some v →
      ∃ k0, populateKey k0 = some k := by
  intro attrs
  induction attrs with
  | nil => intro v h; simp [lastVal] at h
  | cons kv rest ih =>
    intro v h
    cases hr : lastVal k rest with
    | some w => exact ih w hr
    | none =>
      by_cases hk : (populateKey kv.1 == some k) = true
      · exact ⟨kv.1, by simpa using hk⟩
      · simp [lastVal, hr, hk] at h

theorem pkAux (k2 k : String)
    (h : (if strStarts k2 "_" then none
          else some (if k2 = "class" then k2 ++ "_" else k2)) = some k)
    (h2 : k2 ≠ "uri") :
    strStarts k "_" = false ∧ k ≠ "uri" := by
  by_cases hs : strStarts k2 "_"
  · rw [if_pos hs] at h
    exact absurd h (by simp)
  · rw [if_neg hs] at h
    have hk : (if k2 = "class" then k2 ++ "_" else k2) = k :=
      Option.some.inj h
    by_cases hc : k2 = "class"
    · rw [if_pos hc] at hk
      rw [← hk, hc]
      constructor
      · decide
      · decide
    · rw [if_neg hc] at hk
      subst hk
      exact ⟨Bool.eq_false_iff.mpr (fun he => hs he), h2⟩

theorem populateKey_props (k0 k : String) (h : populateKey k0 = some k) :
    strStarts k "_" = false ∧ k ≠ "uri" := by
  have hne : (if (if strStarts k0 "id_" then strDrop k0 3 else k0) = "uri"
      then "uri_" else (if strStarts k0 "id_" then strDrop k0 3 else k0)) ≠
      "uri" := by
    by_cases hu : (if strStarts k0 "id_" then strDrop k0 3 else k0) = "uri"
    · rw [if_pos hu]
      decide
    · rw [if_neg hu]
      exact hu
  exact pkAux _ k h hne

theorem lookup_filter_keep (g : Fields) (k : String) (v : JVal)
    (hg : g.lookup k = some v) (hv : v ≠ JVal.null)
    (hk : strStarts k "_" = false) :
    (g.filter (fun kv => kv.2 != JVal.null && !strStarts kv.1 "_")).lookup k =
      some v := by
  induction g with
  | nil => simp [List.lookup] at hg
  | cons kv rest ih =>
    obtain ⟨k0, v0⟩ := kv
    by_cases h : k = k0
    · subst h
      have hv0 : v0 = v := by
        rw [lookup_cons_self] at hg
        exact Option.some.inj hg
      subst hv0
      have hkeep : ((k, v0) :: rest).filter
          (fun kv => kv.2 != JVal.null && !strStarts kv.1 "_") =
          (k, v0) :: rest.filter
            (fun kv => kv.2 != JVal.null && !strStarts kv.1 "_") := by
        simp [List.filter_cons, bne_iff_ne, hv, hk]
      rw [hkeep, lookup_cons_self]
    · have hg2 : rest.lookup k = some v := by
        rw [lookup_cons_ne k k0 v0 rest h] at hg
        exact hg
      by_cases hkeep : ((v0 != JVal.null) && !strStarts k0 "_") = true
      · have hf : ((k0, v0) :: rest).filter
            (fun kv => kv.2 != JVal.null && !strStarts kv.1 "_") =
            (k0, v0) :: rest.filter
              (fun kv => kv.2 != JVal.null && !strStarts kv.1 "_") := by
          simp [List.filter_cons, hkeep]
        rw [hf, lookup_cons_ne k k0 v0 _ h]
        exact ih hg2
      · have hb : ((v0 != JVal.null) && !strStarts k0 "_") = false :=
          Bool.eq_false_iff.mpr hkeep
        have hf : ((k0, v0) :: rest).filter
            (fun kv => kv.2 != JVal.null && !strStarts kv.1 "_") =
            rest.filter
              (fun kv => kv.2 != JVal.null && !strStarts kv.1 "_") := by
          simp [List.filter_cons, hb]
        rw [hf]
        exact ih hg2

theorem to_json_lookup (g : Model) (k : String) (v : JVal)
    (hg : g.lookup k = some v) (hv : v ≠ JVal.null)
    (hk : strStarts k "_" = false) (hu : k ≠ "uri") :
    (Model.to_json g).lookup (emitKey k) = some v := by
  have hd : (g.fields.filter
      (fun kv => kv.2 != JVal.null && !strStarts kv.1 "_")).lookup k =
      some v := lookup_filter_keep g.fields k v hg hv hk
  show (match (g.fields.filter
          (fun (kv : String × JVal) =>
            kv.2 != JVal.null && !strStarts kv.1 "_")).lookup "uri_"
        with
        | some u =>
          setKey (eraseKey (g.fields.filter
            (fun (kv : String × JVal) =>
              kv.2 != JVal.null && !strStarts kv.1 "_")) "uri_")
            "uri" u
        | none =>
          g.fields.filter
            (fun (kv : String × JVal) =>
              kv.2 != JVal.null && !strStarts kv.1 "_")).lookup
      (emitKey k) = some v
  cases hu2 : (g.fields.filter
      (fun kv => kv.2 != JVal.null && !strStarts kv.1 "_")).lookup "uri_" with
  | some u =>
    simp only [hu2]
    by_cases hk2 : k = "uri_"
    · subst hk2
      have huv : u = v := by
        rw [hd] at hu2
        exact (Option.some.inj hu2).symm
      subst huv
      show (setKey _ "uri" u).lookup "uri" = some u
      exact setKey_lookup_self _ _ _
    · have he : emitKey k = k := by
        unfold emitKey
        rw [if_neg hk2]
      rw [he, setKey_lookup_ne _ _ _ _ (Ne.symm hu),
        eraseKey_lookup_ne _ _ _ (Ne.symm hk2)]
      exact hd
  | none =>
    simp only [hu2]
    have hk2 : k ≠ "uri_" := by
      intro he
      rw [he] at hd
      rw [hd] at hu2
      cases hu2
    have he : emitKey k = k := by
      unfold emitKey
      rw [if_neg hk2]
    rw [he]
    exact hd

/-- C2 counterexample: populating the literal key `class` stores the value
under `class_`, and `to_json` emits it again under `class_`, not `class`
(the value survives but only the `uri_` rename is reversed on output), so
the claim that a key `class` is emitted again as `class` fails on this
concrete input. -/
theorem claim_C2_cex :
    (Model.to_json (Model.populate Model.initE
        [("class", JVal.str "x")])).lookup "class" = none ∧
    (Model.to_json (Model.populate Model.initE
        [("class", JVal.str "x")])).lookup "class_" = some (JVal.str "x") := by
  decide

/-- C2 (amended): `populate` followed by `to_json` round-trips every
non-null populated field unchanged in value, the emitted key being the
stored key except that `uri_` is emitted back as `uri`; in particular a
key `uri` is stored as `uri_` and emitted again as `uri`, while a key
`class` is stored as `class_` and emitted as `class_` (the class rename
is not reversed on output). -/
theorem claim_C2 (e : Model) (attrs : List (String × JVal)) (k : String)
    (v : JVal) (hv : v ≠ JVal.null) (hlast : lastVal k attrs = some v) :
    (Model.to_json (Model.populate e attrs)).lookup (emitKey k) = some v ∧
    populateKey "uri" = some "uri_" ∧ emitKey "uri_" = "uri" ∧
    populateKey "class" = some "class_" ∧ emitKey "class_" = "class_" := by
  refine ⟨?_, by decide, by decide, by decide, by decide⟩
  have h1 := populate_lookup_last attrs e k v hlast
  obtain ⟨k0, hk0⟩ := lastVal_mem k attrs v hlast
  obtain ⟨hA, hB⟩ := populateKey_props k0 k hk0
  exact to_json_lookup _ k v h1 hv hA hB

/-- Witness for C2: populating the key `uri` with a non-null string stores
it at `uri_` and `to_json` emits it back at `uri` with the same value. -/
theorem claim_C2_witness :
    (JVal.str "u" ≠ JVal.null ∧
      lastVal "uri_" [("uri", JVal.str "u")] = some (JVal.str "u")) ∧
    (Model.to_json (Model.populate Model.initE
        [("uri", JVal.str "u")])).lookup (emitKey "uri_") =
      some (JVal.str "u") :=
  ⟨⟨by decide, by decide⟩,
    (claim_C2 Model.initE [("uri", JVal.str "u")] "uri_" (JVal.str "u")
        (by decide) (by decide)).1⟩

/-- C3: populating a collection from a page envelope of size `T` stores
`total = T` and recomputes `total_pages` as the floor division `T // max`
when `max` is a nonzero integer, and as exactly 1 when `max` is unset
(`None`) or 0; in particular `T = 25` with `max = 10` yields 2 pages. -/
theorem claim_C3 (c : Collection Nat) (mk : Fields → Nat) (size : Int)
    (insts : List Fields) (app : Bool) :
    (Collection.populate c mk size insts app).total = size ∧
    (∀ m : Int, c.max = some m → m ≠ 0 →
      (Collection.populate c mk size insts app).total_pages =
        some (Int.fdiv size m)) ∧
    ((c.max = none ∨ c.max = some 0) →
      (Collection.populate c mk size insts app).total_pages = some 1) ∧
    (Collection.populate { c with max := some 10 } mk 25 insts
        app).total_pages = some 2 := by
  refine ⟨rfl, ?_, ?_, ?_⟩
  · intro m hm hm0
    simp [Collection.populate, hm, hm0]
  · rintro (hm | hm) <;> simp [Collection.populate, hm]
  · show some (if (10 : Int) = 0 then 1 else Int.fdiv 25 10) = some 2
    decide

/-- Witness for C3: the floor-division page count at `T = 25`, `max = 10`
is `25 // 10 = 2`, not 3. -/
theorem claim_C3_witness :
    (({ collOf ([] : List Nat) with max := some 10 }).max = some (10 : Int) ∧
      (10 : Int) ≠ 0) ∧
    (Collection.populate { collOf ([] : List Nat) with max := some 10 }
        (fun _ => 0) 25 [] false).total_pages = some (Int.fdiv 25 10) :=
  ⟨⟨rfl, by decide⟩,
    (claim_C3 { collOf ([] : List Nat) with max := some 10 } (fun _ => 0) 25
        [] false).2.1 10 rfl (by decide)⟩

theorem setattr_idVal (e : Model) (i : JVal) :
    (Model.setattr e "id" i).idVal = i := by
  simp [Model.setattr, Model.idVal, setKey_lookup_self]

theorem setattr_lookup_ne (e : Model) (k0 k : String) (v : JVal)
    (h : k0 ≠ k) : (Model.setattr e k0 v).lookup k = e.lookup k := by
  simp [Model.setattr, Model.lookup, setKey_lookup_ne _ _ _ _ h]

theorem populate_id_frame :
    ∀ (attrs : List (String × JVal)) (e : Model),
      (∀ kv ∈ attrs, populateKey kv.1 ≠ some "id") →
      (Model.populate e attrs).idVal = e.idVal := by
  intro attrs
  induction attrs with
  | nil => intro e h; rfl
  | cons kv rest ih =>
    intro e h
    rw [populate_cons]
    cases hpk : populateKey kv.1 with
    | none =>
      simp only [hpk]
      exact ih e (fun p hp => h p (List.mem_cons_of_mem kv hp))
    | some k2 =>
      simp only [hpk]
      have hne : k2 ≠ "id" := by
        intro he
        exact h kv (List.mem_cons_self kv rest) (by rw [hpk, he])
      rw [ih _ (fun p hp => h p (List.mem_cons_of_mem kv hp))]
      simp [Model.setattr, Model.idVal, setKey_lookup_ne _ _ _ _ hne]

/-- C4 counterexample: a freshly constructed `CurrentUser` — an entity that
has never been successfully created remotely — already carries the
non-null id 0 straight out of its constructor, so for the CurrentUser
kind (explicitly included in the claim) `id == null` is not equivalent to
never having been created. -/
theorem claim_C4_cex :
    CurrentUser.initE.idVal = JVal.int 0 ∧
    CurrentUser.initE.idVal ≠ JVal.null ∧
    CurrentUser.initE.is_new = false := by
  refine ⟨by decide, by decide, by decide⟩

/-- C4 (amended): for base models `id` is null at construction, but
`CurrentUser` presets `id` to 0; `save`, and `fetch`, `update`, `delete`
called without an explicit id, leave `id` unchanged (as does `populate`
of a mapping assigning no id attribute), while `update` and `delete`
called with an explicit id assign it, and `UserRole.fetch` (like
`UserGroup.fetch`) always resets `id` to -1. -/
theorem claim_C4 (e : Model) (attrs : List (String × JVal)) (i : JVal) :
    Model.initE.idVal = JVal.null ∧
    CurrentUser.initE.idVal = JVal.int 0 ∧
    (Model.save e).state.idVal = e.idVal ∧
    (Model.update e none []).state.idVal = e.idVal ∧
    (Model.delete e none).state.idVal = e.idVal ∧
    (Model.fetch e none).state.idVal = e.idVal ∧
    (Model.update e (some i) []).state.idVal = i ∧
    (Model.delete e (some i)).state.idVal = i ∧
    ((∀ kv ∈ attrs, populateKey kv.1 ≠ some "id") →
      (Model.populate e attrs).idVal = e.idVal) ∧
    (UserRole.fetch e none none).state.idVal = JVal.int (-1) ∧
    (UserGroup.fetch e none none).state.idVal = JVal.int (-1) := by
  refine ⟨rfl, by decide, ?_, ?_, ?_, ?_, ?_, ?_, ?_, ?_, ?_⟩
  · cases hid : e.idVal == JVal.null <;>
      simp [Model.save, Model.update, hid]
  · cases hid : e.idVal == JVal.null <;> simp [Model.update, hid]
  · cases hid : e.idVal == JVal.null <;> simp [Model.delete, hid]
  · cases hid : e.idVal == JVal.null <;> simp [Model.fetch, hid]
  · simp [Model.update, setattr_idVal]
  · simp [Model.delete, setattr_idVal]
  · exact populate_id_frame attrs e
  · have h3 : (UserRole.fetch e none none).state =
        e.setattr "id" (JVal.int (-1)) := by
      simp only [UserRole.fetch, Option.isNone_none, Bool.and_true]
      split
      · rfl
      · split
        · rfl
        · rfl
    rw [h3, setattr_idVal]
  · have h4 : (UserGroup.fetch e none none).state =
        e.setattr "id" (JVal.int (-1)) := by
      simp only [UserGroup.fetch, Option.isNone_none, Bool.and_true]
      split
      · rfl
      · split
        · rfl
        · rfl
    rw [h4, setattr_idVal]

/-- Witness for C4: populating a name attribute leaves the id of a fresh
model unchanged (null). -/
theorem claim_C4_witness :
    (∀ kv ∈ [("name", JVal.str "n")], populateKey kv.1 ≠ some "id") ∧
    (Model.populate Model.initE [("name", JVal.str "n")]).idVal =
      Model.initE.idVal :=
  ⟨by decide,
    (claim_C4 Model.initE [("name", JVal.str "n")]
        (JVal.int 5)).2.2.2.2.2.2.2.2.1 (by decide)⟩

/-- C5 counterexample: a fresh `UserRole` (no user, no role) raises the
missing-user-ID error from `fetch` with no transport call, but the failing
call has already mutated the object: its `id` went from null to -1, so the
state is not exactly as it was before the call. -/
theorem claim_C5_cex :
    (UserRole.fetch (UserRole.initE JVal.null JVal.null) none none).outcome =
      Outcome.err (.valueError "Cannot fetch a model with no user ID.") ∧
    (UserRole.fetch (UserRole.initE JVal.null JVal.null) none none).calls =
      [] ∧
    (UserRole.initE JVal.null JVal.null).idVal = JVal.null ∧
    (UserRole.fetch (UserRole.initE JVal.null JVal.null) none none).state ≠
      UserRole.initE JVal.null JVal.null ∧
    (UserRole.fetch (UserRole.initE JVal.null JVal.null) none
        none).state.idVal = JVal.int (-1) := by
  refine ⟨by decide, by decide, by decide, by decide, by decide⟩

/-- C5 (amended): every listed precondition error is raised synchronously,
before any transport call; for the base model operations and for
`Collection.save` with an invalid chunk type the object state is exactly
as before the failing call, but the composite-key fetches
(`UserRole.fetch`, and identically `UserGroup.fetch`) assign `id = -1`
before validating, so their failing calls leave `id` mutated. -/
theorem claim_C5 (e : Model) (attrs : List (String × JVal)) (owner : Model)
    (c : Collection Nat) (success : Nat → Bool) (cls : String)
    (fil : List (String × String)) (mx : Option Int) (off : Int) :
    (e.idVal = JVal.null →
      Model.fetch e none =
        ⟨e, .err (.valueError "Cannot fetch a model with no ID."), []⟩ ∧
      Model.update e none attrs =
        ⟨e, .err (.valueError "Cannot update a model with no ID."), []⟩ ∧
      Model.delete e none =
        ⟨e, .err (.valueError "Cannot delete a model with no ID."), []⟩) ∧
    Collection.save c ChunkArg.invalid success =
      ⟨.err (.valueError "Invalid value for chunk parameter."), []⟩ ∧
    (owner.is_new = true →
      DomainModel.init owner =
        .error (.valueError "The object must be fetched or saved before.") ∧
      DomainCollection.init Nat cls owner fil mx off =
        .error (.valueError "The object must be fetched or saved before.")) ∧
    ((e.lookup "user").getD JVal.null = JVal.null →
      UserRole.fetch e none none =
        ⟨e.setattr "id" (JVal.int (-1)),
          .err (.valueError "Cannot fetch a model with no user ID."), []⟩ ∧
      UserGroup.fetch e none none =
        ⟨e.setattr "id" (JVal.int (-1)),
          .err (.valueError "Cannot fetch a model with no user ID."), []⟩) := by
  refine ⟨?_, rfl, ?_, ?_⟩
  · intro hid
    have hb : (e.idVal == JVal.null) = true := beq_iff_eq.mpr hid
    exact ⟨by simp [Model.fetch, hb], by simp [Model.update, hb],
      by simp [Model.delete, hb]⟩
  · intro hnew
    exact ⟨by simp [DomainModel.init, hnew],
      by simp [DomainCollection.init, hnew]⟩
  · intro huser
    have hlk : (e.setattr "id" (JVal.int (-1))).lookup "user" =
        e.lookup "user" := setattr_lookup_ne e "id" "user" _ (by decide)
    have hb : (((e.setattr "id" (JVal.int (-1))).lookup "user").getD JVal.null
        == JVal.null) = true := by
      rw [hlk]
      exact beq_iff_eq.mpr huser
    exact ⟨by simp [UserRole.fetch, hb], by simp [UserGroup.fetch, hb]⟩

/-- Witness for C5: fetching a fresh base model with no id raises the
missing-ID error before any transport call and leaves the model state
untouched. -/
theorem claim_C5_witness :
    Model.initE.idVal = JVal.null ∧
    Model.fetch Model.initE none =
      ⟨Model.initE, .err (.valueError "Cannot fetch a model with no ID."),
        []⟩ :=
  ⟨rfl,
    ((claim_C5 Model.initE [] Model.initE (collOf []) (fun _ => true) "c" []
        (some 0) 0).1 rfl).1⟩

theorem str_empty_append (s : String) : "" ++ s = s := by
  cases s
  rfl

/-- C6: building a collection URI with filters requested fails with the
invalid-argument error when more than one filter key is set; with exactly
one set filter whose key is allowed it returns `key/value/kind.json`; and
it returns just `kind.json` when no filter applies (no filter set, or the
single set filter not allowed) or when `without_filters` is set. -/
theorem claim_C6 (c : Collection Nat) (kind k v : String) :
    (c.filters.length > 1 →
      Collection.uri c kind false =
        .error (.valueError "More than 1 filter not allowed by default.")) ∧
    Collection.uri c kind true = .ok (kind ++ ".json") ∧
    (c.filters = [(k, v)] → c.allowed_filters.contains (some k) = true →
      Collection.uri c kind false =
        .ok (k ++ "/" ++ v ++ "/" ++ kind ++ ".json")) ∧
    (c.filters = [(k, v)] → c.allowed_filters.contains (some k) = false →
      Collection.uri c kind false = .ok (kind ++ ".json")) ∧
    (c.filters = [] → Collection.uri c kind false = .ok (kind ++ ".json")) := by
  refine ⟨?_, ?_, ?_, ?_, ?_⟩
  · intro h
    simp [Collection.uri, h]
  · simp [Collection.uri]
  · intro hf ha
    have hone : ¬(c.filters.length > 1) := by
      rw [hf]
      simp
    have hparts : (c.filters.filter
        (fun kv => c.allowed_filters.contains (some kv.1))).map
        (fun kv => kv.1 ++ "/" ++ kv.2) = [k ++ "/" ++ v] := by
      rw [hf]
      simp [List.filter_cons, List.mem_of_elem_eq_true ha]
    have hpos : (k ++ "/" ++ v).length > 0 := by
      rw [String.length_append, String.length_append]
      have h1 : ("/" : String).length = 1 := rfl
      omega
    simp only [Collection.uri, Bool.not_false, if_true, if_neg hone, hparts]
    rw [show joinSlash [k ++ "/" ++ v] = k ++ "/" ++ v from rfl,
      if_pos hpos]
  · intro hf ha
    have hone : ¬(c.filters.length > 1) := by
      rw [hf]
      simp
    have ham : some k ∉ c.allowed_filters := by
      intro hm
      have he := List.elem_eq_true_of_mem hm
      rw [show c.allowed_filters.elem (some k) =
        c.allowed_filters.contains (some k) from rfl, ha] at he
      cases he
    have hparts : (c.filters.filter
        (fun kv => c.allowed_filters.contains (some kv.1))).map
        (fun kv => kv.1 ++ "/" ++ kv.2) = [] := by
      rw [hf]
      simp [List.filter_cons, ham]
    simp only [Collection.uri, Bool.not_false, if_true, if_neg hone, hparts]
    rw [show joinSlash [] = "" from rfl]
    have hz : ¬(("" : String).length > 0) := by decide
    rw [if_neg hz, str_empty_append]
  · intro hf
    have hone : ¬(c.filters.length > 1) := by
      rw [hf]
      simp
    have hparts : (c.filters.filter
        (fun kv => c.allowed_filters.contains (some kv.1))).map
        (fun kv => kv.1 ++ "/" ++ kv.2) = [] := by
      rw [hf]
      rfl
    simp only [Collection.uri, Bool.not_false, if_true, if_neg hone, hparts]
    rw [show joinSlash [] = "" from rfl]
    have hz : ¬(("" : String).length > 0) := by decide
    rw [if_neg hz, str_empty_append]

/-- The filter and allowed-filter state of a `UserCollection` fetched with a
`project` filter of value 3. -/
def wColl : Collection Nat :=
  { cls := "usercollection", data := [],
    allowed_filters := [none, some "project", some "ontology"],
    filters := [("project", "3")], max := some 0, offset := 0, total := 0,
    total_pages := none }

/-- Witness for C6: exactly one allowed filter set yields
`project/3/user.json`. -/
theorem claim_C6_witness :
    (wColl.filters = [("project", "3")] ∧
      wColl.allowed_filters.contains (some "project") = true) ∧
    Collection.uri wColl "user" false = .ok "project/3/user.json" :=
  ⟨⟨rfl, by decide⟩,
    ((claim_C6 wColl "user" "project" "3").2.2.1 rfl (by decide)).trans
      (congrArg Except.ok (by decide))⟩

/-- C7 counterexample: `Role.save` raises the not-implemented rejection and
performs zero transport calls, so it is not the case that every entity
save performs exactly one transport call. -/
theorem claim_C7_cex :
    (Role.save Role.initE).calls = [] ∧
    (Role.save Role.initE).outcome =
      Outcome.err (.notImplemented "Cannot save a new role by client.") :=
  ⟨rfl, rfl⟩

/-- C7 (amended): `is_new()` is true exactly when `id` is unset, and the
base `Model.save` performs exactly one transport call — the create when
the entity is new and the update otherwise — but entity kinds that
override save or update as not-implemented raise instead and perform no
transport call: `Role.save` directly, and save on a persisted `UserGroup`
or `UserRole` through their not-implemented `update` overrides. -/
theorem claim_C7 (e : Model) :
    (Model.is_new e = true ↔ e.idVal = JVal.null) ∧
    (Model.save e).calls =
      [if Model.is_new e then TCall.postModel else TCall.putModel] ∧
    (Model.save e).outcome = Outcome.ok ∧
    (Role.save e).calls = [] ∧
    (Model.is_new e = false →
      UserGroup.save e =
        ⟨e, .err (.notImplemented "Cannot update a user-group."), []⟩ ∧
      UserRole.save e =
        ⟨e, .err (.notImplemented "Cannot update a user-role."), []⟩) := by
  refine ⟨?_, ?_, ?_, rfl, ?_⟩
  · simp [Model.is_new]
  · cases hid : e.idVal == JVal.null <;>
      simp [Model.save, Model.update, Model.is_new, hid]
  · cases hid : e.idVal == JVal.null <;>
      simp [Model.save, Model.update, hid]
  · intro hnew
    have hid : (e.idVal == JVal.null) = false := hnew
    exact ⟨by simp [UserGroup.save, UserGroup.update, hid],
      by simp [UserRole.save, UserRole.update, hid]⟩

/-- Witness for C7: save on a persisted user-group reaches the
not-implemented update override and performs no transport call. -/
theorem claim_C7_witness :
    Model.is_new ((UserGroup.initE (JVal.int 1) (JVal.int 2)).setattr "id"
      (JVal.int 9)) = false ∧
    UserGroup.save ((UserGroup.initE (JVal.int 1) (JVal.int 2)).setattr "id"
        (JVal.int 9)) =
      ⟨(UserGroup.initE (JVal.int 1) (JVal.int 2)).setattr "id" (JVal.int 9),
        .err (.notImplemented "Cannot update a user-group."), []⟩ :=
  ⟨by decide,
    ((claim_C7 ((UserGroup.initE (JVal.int 1) (JVal.int 2)).setattr "id"
        (JVal.int 9))).2.2.2.2 (by decide)).1⟩

/-- C8: constructing a domain-scoped entity or collection around a new
(unsaved) owner fails immediately with the invalid-argument error, before
any transport call; around a persisted owner, the owner class
discriminator and id are snapshotted into `domainClassName` and
`domainIdent` at assignment, the nested URI is built from the snapshot,
and replacing the stored owner reference afterwards leaves the URI
unchanged (the snapshot is not re-derived). -/
theorem claim_C8 (owner e2 : Model) (cn : JVal) (kind cls : String)
    (fil : List (String × String)) (mx : Option Int) (off : Int)
    (d : DomainModel) (dc : DomainCollection Nat) (wf : Bool) :
    (owner.is_new = true →
      DomainModel.init owner =
        .error (.valueError "The object must be fetched or saved before.") ∧
      DomainCollection.init Nat cls owner fil mx off =
        .error (.valueError "The object must be fetched or saved before.")) ∧
    (owner.is_new = false → owner.lookup "class_" = some cn →
      DomainModel.init owner = .ok ⟨Model.initE, cn, owner.idVal, owner⟩ ∧
      DomainCollection.init Nat cls owner fil mx off =
        .ok ⟨Collection.init Nat cls fil mx off, cn, owner.idVal, owner⟩) ∧
    DomainModel.uri kind { d with obj := e2 } = DomainModel.uri kind d ∧
    DomainCollection.uri { dc with obj := e2 } kind wf =
      DomainCollection.uri dc kind wf ∧
    DomainModel.uri kind ⟨Model.initE, cn, owner.idVal, owner⟩ =
      "domain/" ++ cn.pyStr ++ "/" ++ owner.idVal.pyStr ++ "/" ++ kind ++
        ".json" := by
  refine ⟨?_, ?_, rfl, rfl, rfl⟩
  · intro hnew
    exact ⟨by simp [DomainModel.init, hnew],
      by simp [DomainCollection.init, hnew]⟩
  · intro hnew hcls
    exact ⟨by simp [DomainModel.init, hnew, hcls],
      by simp [DomainCollection.init, hnew, hcls]⟩

/-- A persisted owner entity: id 7, class discriminator set (as left by a
fetch of a project). -/
def ownerP : Model :=
  (Model.initE.setattr "id" (JVal.int 7)).setattr "class_"
    (JVal.str "be.cytomine.project.Project")

/-- Witness for C8: constructing a domain-scoped entity around the persisted
owner snapshots its class discriminator and id. -/
theorem claim_C8_witness :
    (ownerP.is_new = false ∧
      ownerP.lookup "class_" = some (JVal.str "be.cytomine.project.Project")) ∧
    DomainModel.init ownerP =
      .ok ⟨Model.initE, JVal.str "be.cytomine.project.Project",
        ownerP.idVal, ownerP⟩ :=
  ⟨⟨by decide, by decide⟩,
    ((claim_C8 ownerP Model.initE (JVal.str "be.cytomine.project.Project")
        "kind" "cls" [] (some 0) 0
        ⟨Model.initE, JVal.null, JVal.null, Model.initE⟩
        ⟨collOf [], JVal.null, JVal.null, Model.initE⟩ false).2.1
      (by decide) (by decide)).1⟩

/-- C9: inserting or assigning a value that is not an instance of the
declared element kind, or concatenating with a collection of a different
concrete class, fails immediately with a type error and leaves the
element sequence (and the whole collection state) unmodified. -/
theorem claim_C9 (c other : Collection Nat) (inst : Nat → Bool) (idx : Nat)
    (v : Nat) :
    (inst v = false →
      Collection.setitem c inst idx v =
        (.err (.typeError
          "Value of this type not allowed in this collection."), c) ∧
      Collection.insert c inst idx v =
        (.err (.typeError
          "Value of this type not allowed in this collection."), c)) ∧
    (c.cls ≠ other.cls →
      Collection.iadd c other =
        (.err (.typeError
          "Only two same Collection objects can be added together."), c) ∧
      Collection.add c other =
        (.err (.typeError
          "Only two same Collection objects can be added together."), c)) := by
  constructor
  · intro h
    exact ⟨by simp [Collection.setitem, h], by simp [Collection.insert, h]⟩
  · intro h
    exact ⟨by simp [Collection.iadd, h], by simp [Collection.add, h]⟩

/-- Witness for C9: assigning the out-of-kind value 99 into a two-element
collection raises the type error and leaves the collection unmodified. -/
theorem claim_C9_witness :
    ((fun n => decide (n < 10)) 99 = false) ∧
    Collection.setitem (collOf [1, 2]) (fun n => decide (n < 10)) 0 99 =
      (.err (.typeError "Value of this type not allowed in this collection."),
        collOf [1, 2]) :=
  ⟨by decide,
    ((claim_C9 (collOf [1, 2]) (collOf []) (fun n => decide (n < 10)) 0
        99).1 (by decide)).1⟩

/-- C10: `DomainCollection.populate` modifies only the element sequence —
`_total` and `_total_pages` (and every other attribute) stay unchanged,
unlike the base `Collection.populate`, which stores the envelope size in
`_total`; consequently a domain-scoped collection starting from its
constructor state (`_total_pages = None`) never records a page count, no
matter how many populate steps its fetches perform. -/
theorem claim_C10 (dc : DomainCollection Nat) (mk : Model → Fields → Nat)
    (size : Int) (insts : List Fields) (app : Bool)
    (steps : List (Int × List Fields × Bool)) (cls : String)
    (fil : List (String × String)) (mx : Option Int) (off : Int) :
    (DomainCollection.populate dc mk size insts app).base.total =
      dc.base.total ∧
    (DomainCollection.populate dc mk size insts app).base.total_pages =
      dc.base.total_pages ∧
    (DomainCollection.populate dc mk size insts app) =
      { dc with base := { dc.base with data :=
          (if app then dc.base.data ++ insts.map (mk dc.obj)
            else insts.map (mk dc.obj)) } } ∧
    (Collection.populate dc.base (mk dc.obj) size insts app).total = size ∧
    (Collection.init Nat cls fil mx off).total_pages = none ∧
    (dc.base.total_pages = none →
      (steps.foldl
          (fun d p => DomainCollection.populate d mk p.1 p.2.1 p.2.2)
        dc).base.total_pages = none) := by
  refine ⟨rfl, rfl, rfl, rfl, rfl, ?_⟩
  induction steps generalizing dc with
  | nil => intro h; exact h
  | cons p rest ih =>
    intro h
    rw [List.foldl_cons]
    exact ih (DomainCollection.populate dc mk p.1 p.2.1 p.2.2) h

/-- Witness for C10: one populate step on a fresh domain-scoped collection
leaves the page count unset. -/
theorem claim_C10_witness :
    (⟨collOf [], JVal.str "klass", JVal.int 7, ownerP⟩ :
        DomainCollection Nat).base.total_pages = none ∧
    (([((25 : Int), ([] : List Fields), false)]).foldl
        (fun d p =>
          DomainCollection.populate d (fun _ _ => 0) p.1 p.2.1 p.2.2)
      ⟨collOf [], JVal.str "klass", JVal.int 7, ownerP⟩).base.total_pages =
      none :=
  ⟨rfl,
    (claim_C10 ⟨collOf [], JVal.str "klass", JVal.int 7, ownerP⟩
        (fun _ _ => 0) 0 [] false [(25, [], false)] "c" [] (some 0)
        0).2.2.2.2.2 rfl⟩
